import Mathlib

/-!
Shallow embedding of the two gadgets of the halo2-playground repository:
the is-zero indicator chip (src/chips/is_zero.rs) and the XOR lookup chip
with its fixed table (src/chips/xor.rs, src/chips/xor/table.rs).

The arithmetization backend is modelled by a small state record holding the
allocated selectors and columns together with the registered gates and lookup
arguments; gate polynomials are modelled by an expression tree mirroring the
subset of the halo2 `Expression` type that the source builds.  Witness-side
computations (the inverse witness of `load_value`, the result witness of
`is_zero`, and the XOR result witness of `calculate_xor`) are modelled as pure
functions over a generic field, or over integer representatives of the Pallas
base field where the source manipulates the low 128 bits of the
representation.
-/

namespace HaloPlayground

/-- Polynomial expression tree, mirroring the subset of the halo2
`Expression` type used by the source: a constant built with `F::from`, a
selector query, an advice query at a rotation, and sums, differences and
products. -/
inductive Expression where
  | const (n : ℕ)
  | selector (i : ℕ)
  | advice (col : ℕ) (rot : ℤ)
  | add (a b : Expression)
  | sub (a b : Expression)
  | mul (a b : Expression)
deriving DecidableEq

/-- Evaluation of an expression on one row, given the value of every selector
and the value of every advice cell (column, rotation). -/
def Expression.eval {F : Type} [Field F] (sel : ℕ → F) (adv : ℕ → ℤ → F) :
    Expression → F
  | Expression.const n => (n : F)
  | Expression.selector i => sel i
  | Expression.advice c r => adv c r
  | Expression.add a b => Expression.eval sel adv a + Expression.eval sel adv b
  | Expression.sub a b => Expression.eval sel adv a - Expression.eval sel adv b
  | Expression.mul a b => Expression.eval sel adv a * Expression.eval sel adv b

/-- Configuration-time state of the backend (`ConstraintSystem` in halo2):
counters for allocated selectors, advice columns and lookup-table columns,
the advice columns with equality enabled, the registered gates and the
registered lookup arguments.  A lookup argument is a list of pairs of an
input expression and a table column index. -/
structure ConstraintSystem where
  num_selectors : ℕ
  num_advice : ℕ
  num_table : ℕ
  equality : List ℕ
  gates : List (List Expression)
  lookups : List (List (Expression × ℕ))

/-- The backend state before any configuration call. -/
def emptyCS : ConstraintSystem := ⟨0, 0, 0, [], [], []⟩

/-- `meta.selector()`: allocates a fresh selector index. -/
def ConstraintSystem.selector (cs : ConstraintSystem) : ℕ × ConstraintSystem :=
  (cs.num_selectors, { cs with num_selectors := cs.num_selectors + 1 })

/-- `meta.complex_selector()`: allocates a fresh selector usable in lookups. -/
def ConstraintSystem.complex_selector (cs : ConstraintSystem) :
    ℕ × ConstraintSystem :=
  cs.selector

/-- `meta.advice_column()`: allocates a fresh advice column index. -/
def ConstraintSystem.advice_column (cs : ConstraintSystem) :
    ℕ × ConstraintSystem :=
  (cs.num_advice, { cs with num_advice := cs.num_advice + 1 })

/-- `meta.lookup_table_column()`: allocates a fresh table column index. -/
def ConstraintSystem.lookup_table_column (cs : ConstraintSystem) :
    ℕ × ConstraintSystem :=
  (cs.num_table, { cs with num_table := cs.num_table + 1 })

/-- `meta.enable_equality(col)` for an advice column. -/
def ConstraintSystem.enable_equality (cs : ConstraintSystem) (col : ℕ) :
    ConstraintSystem :=
  { cs with equality := cs.equality ++ [col] }

/-- `meta.create_gate(..)`: registers one gate, a list of polynomials that
must all vanish on selector-active rows. -/
def ConstraintSystem.create_gate (cs : ConstraintSystem)
    (polys : List Expression) : ConstraintSystem :=
  { cs with gates := cs.gates ++ [polys] }

/-- `meta.lookup(..)`: registers one lookup argument. -/
def ConstraintSystem.lookup (cs : ConstraintSystem)
    (entries : List (Expression × ℕ)) : ConstraintSystem :=
  { cs with lookups := cs.lookups ++ [entries] }

/-- Configuration of the is-zero chip: the three advice columns handed in by
the consumer and the selector allocated by `configure`. -/
structure IsZeroConfig where
  value : ℕ
  value_inverse : ℕ
  result : ℕ
  selector : ℕ

namespace IsZeroChip

/-- The three polynomials of the gate registered by `IsZeroChip::configure`
(is_zero.rs, lines 52-66), transcribed with the association of the Rust
operators:
`s * is_zero * (is_zero - one)`,
`s * ((one - is_zero) * (v * v_inv - one) + is_zero * (v - v_inv))`,
`s * v * is_zero`. -/
def gate_polys (value value_inverse result selector : ℕ) : List Expression :=
  let s := Expression.selector selector
  let v := Expression.advice value 0
  let v_inv := Expression.advice value_inverse 0
  let is_zero := Expression.advice result 0
  let one := Expression.const 1
  [ (s.mul is_zero).mul (is_zero.sub one),
    s.mul (((one.sub is_zero).mul ((v.mul v_inv).sub one)).add
      (is_zero.mul (v.sub v_inv))),
    (s.mul v).mul is_zero ]

/-- `IsZeroChip::configure` (is_zero.rs, lines 44-75): allocates a selector
and registers the is-zero gate over the three given advice columns. -/
def configure (cs : ConstraintSystem) (value value_inverse result : ℕ) :
    IsZeroConfig × ConstraintSystem :=
  let p := cs.selector
  let cs1 := p.2.create_gate (gate_polys value value_inverse result p.1)
  (⟨value, value_inverse, result, p.1⟩, cs1)

end IsZeroChip

/-- Inverse witness computed by `IsZeroChip::load_value` (is_zero.rs, line
99): `v.invert().unwrap_or(F::zero())`, the multiplicative inverse of `v`,
or zero when `v` has no inverse, which in a field happens exactly at zero. -/
def inv_witness {F : Type} [Field F] [DecidableEq F] (v : F) : F :=
  if v = 0 then 0 else v⁻¹

/-- The columns of the is-zero chip, for recording where `load_value`
assigns. -/
inductive IZCol where
  | value
  | value_inverse
  | result
deriving DecidableEq

/-- One advice assignment: target column, region index (consecutive regions
opened by the chip are numbered from zero), row offset inside the region,
and assigned value. -/
structure IZAssign (F : Type) where
  col : IZCol
  region : ℕ
  row : ℕ
  val : F

/-- The two advice assignments performed by `IsZeroChip::load_value`
(is_zero.rs, lines 88-102): the value at offset 0 of a first region, and the
inverse witness at offset 0 of a second region.  Both calls pass
`config.value` as the column (the second one at line 97), so both cells live
in the `value` column. -/
def load_value_assigns {F : Type} [Field F] [DecidableEq F] (v : F) :
    List (IZAssign F) :=
  [⟨IZCol.value, 0, 0, v⟩, ⟨IZCol.value, 1, 0, inv_witness v⟩]

/-- Values held by the pair of cells that `load_value` returns (the `ValueIZ`
pair): the value cell and the inverse-witness cell. -/
def load_value_cells {F : Type} [Field F] [DecidableEq F] (v : F) : F × F :=
  (v, inv_witness v)

/-- Result witness computed inside `IsZeroChip::is_zero` (is_zero.rs, lines
126-130) from the values of the two copied cells:
`Value::known(F::from(1)) - value.0 * value.1`. -/
def is_zero_run {F : Type} [Field F] (cells : F × F) : F :=
  1 - cells.1 * cells.2

/-- Result witness of the full protocol `load_value` then `is_zero`. -/
def is_zero_result {F : Type} [Field F] [DecidableEq F] (v : F) : F :=
  is_zero_run (load_value_cells v)

/-- Advice environment of the single gate row of `is_zero`, for the chip
configured over advice columns 0 (value), 1 (value_inverse), 2 (result), as
in the test circuit and the example circuit. -/
def izEnv {F : Type} (v v_inv r : F) : ℕ → ℤ → F :=
  fun c _ => if c = 0 then v else if c = 1 then v_inv else r

/-- The three table columns of the XOR table (table.rs). -/
structure XorTableConfig where
  left : ℕ
  right : ℕ
  result : ℕ

/-- `XorTableConfig::configure` (table.rs, lines 24-35): allocates the three
lookup-table columns. -/
def XorTableConfig.configure (cs : ConstraintSystem) :
    XorTableConfig × ConstraintSystem :=
  let p1 := cs.lookup_table_column
  let p2 := p1.2.lookup_table_column
  let p3 := p2.2.lookup_table_column
  (⟨p1.1, p2.1, p3.1⟩, p3.2)

/-- Rows assigned by `XorTableConfig::load` (table.rs, lines 38-70): a double
loop, `left_value` outer and `right_value` inner, each over `0..(1 << BITS)`,
assigning at consecutive offsets the triple
`(F::from(left_value), F::from(right_value), F::from(left_value ^ right_value))`. -/
def xor_table_rows (F : Type) [Semiring F] (BITS : ℕ) : List (F × F × F) :=
  (List.range (2 ^ BITS)).flatMap fun (left_value : ℕ) =>
    (List.range (2 ^ BITS)).map fun (right_value : ℕ) =>
      ((left_value : F), (right_value : F),
        ((left_value ^^^ right_value : ℕ) : F))

/-- The XOR chip: its selector, table, and three advice columns. -/
structure XorChip where
  q_lookup : ℕ
  xor_table : XorTableConfig
  left_advice : ℕ
  right_advice : ℕ
  result_advice : ℕ

/-- `XorChip::construct` (xor.rs, lines 29-66): allocates a complex selector,
the three table columns, three fresh advice columns, enables equality on the
advice columns, and registers the lookup argument
`(q * left_cur, table.left), (q * right_cur, table.right),
(q * result_cur, table.result)`. -/
def XorChip.construct (cs : ConstraintSystem) : XorChip × ConstraintSystem :=
  let q := cs.complex_selector
  let t := XorTableConfig.configure q.2
  let l := t.2.advice_column
  let r := l.2.advice_column
  let res := r.2.advice_column
  let cs1 := ((res.2.enable_equality l.1).enable_equality r.1).enable_equality
    res.1
  let cs2 := cs1.lookup
    [((Expression.selector q.1).mul (Expression.advice l.1 0), t.1.left),
     ((Expression.selector q.1).mul (Expression.advice r.1 0), t.1.right),
     ((Expression.selector q.1).mul (Expression.advice res.1 0), t.1.result)]
  (⟨q.1, t.1, l.1, r.1, res.1⟩, cs2)

/-- The XOR chip constructed on a fresh backend state. -/
def xorChipDefault : XorChip × ConstraintSystem := XorChip.construct emptyCS

/-- Order of the Pallas base field, the field `pasta::Fp` with which the
repository instantiates the chips; integer representatives of its elements
range over `[0, pasta_p)`. -/
def pasta_p : ℕ :=
  28948022309329048855892746252171976963363056481941560715954676764349967630337

/-- `FieldExt::get_lower_128` on an integer representative: the low 128 bits
of the canonical representation. -/
def get_lower_128 (rep : ℕ) : ℕ := rep % 2 ^ 128

/-- `F::from_u128` at representative level: the representative of the field
element obtained from a 128-bit integer. -/
def from_u128_rep (v : ℕ) : ℕ := v % pasta_p

/-- Result witness of `XorChip::calculate_xor` (xor.rs, lines 98-102) at
representative level: `F::from_u128(left.get_lower_128() ^
right.get_lower_128())`. -/
def calculate_xor_witness (left right : ℕ) : ℕ :=
  from_u128_rep (get_lower_128 left ^^^ get_lower_128 right)

/-- The three advice values placed in the single region of
`XorChip::calculate_xor` (xor.rs, lines 68-108), given the representatives of
the two input cells: the selector is enabled at offset 0, the left and right
cells are copied into the left and right advice columns, and the XOR witness
is assigned into the result column.  No check on the inputs is performed. -/
def calculate_xor_run (left right : ℕ) : ℕ × ℕ × ℕ :=
  (left, right, calculate_xor_witness left right)

/-- Origin variant as the spec words it (spec 4.2, runtime protocol): takes
two raw integers, validates `left < 2^BITS` and `right < 2^BITS` fatally, and
assigns `left`, `right` and `left XOR right` directly.  This definition
follows the words of the spec for comparison with the source; the source
contains no such variant. -/
def calculate_xor_origin_spec (BITS left right : ℕ) : Option (ℕ × ℕ × ℕ) :=
  if left < 2 ^ BITS ∧ right < 2 ^ BITS then some (left, right, left ^^^ right)
  else none

instance fact_prime_eleven : Fact (Nat.Prime 11) := ⟨by norm_num⟩

/-! Helper lemmas about a double loop over ranges, used for the table. -/

theorem range_flatMap_map_length {α : Type} (g : ℕ → ℕ → α) (m n : ℕ) :
    ((List.range m).flatMap fun x => (List.range n).map (g x)).length = m * n := by
  induction m with
  | zero => simp
  | succ m ih =>
    rw [List.range_succ, List.flatMap_append]
    simp [ih, Nat.succ_mul]

theorem range_flatMap_map_get {α : Type} (g : ℕ → ℕ → α) (m n a b : ℕ)
    (ha : a < m) (hb : b < n) :
    ((List.range m).flatMap fun x => (List.range n).map (g x))[a * n + b]? =
      some (g a b) := by
  induction m with
  | zero => omega
  | succ m ih =>
    rw [List.range_succ, List.flatMap_append]
    rcases Nat.lt_or_ge a m with h | h
    · have hlen : a * n + b <
          ((List.range m).flatMap fun x => (List.range n).map (g x)).length := by
        rw [range_flatMap_map_length]
        have h1 : a * n + b < (a + 1) * n := by
          rw [Nat.succ_mul]; omega
        have h2 : (a + 1) * n ≤ m * n := Nat.mul_le_mul_right n (by omega)
        omega
      rw [List.getElem?_append_left hlen]
      exact ih h
    · have ha2 : a = m := by omega
      subst ha2
      have hlen :
          ((List.range a).flatMap fun x => (List.range n).map (g x)).length ≤
            a * n + b := by
        rw [range_flatMap_map_length]; omega
      rw [List.getElem?_append_right hlen, range_flatMap_map_length]
      have hsingle : ([a].flatMap fun x => (List.range n).map (g x)) =
          (List.range n).map (g a) := by simp
      rw [Nat.add_sub_cancel_left, hsingle, List.getElem?_map,
        List.getElem?_range hb]
      rfl

theorem xor_witness_of_lt {left right : ℕ} (hl : left < 2 ^ 128)
    (hr : right < 2 ^ 128) :
    calculate_xor_witness left right = left ^^^ right := by
  unfold calculate_xor_witness get_lower_128 from_u128_rep
  rw [Nat.mod_eq_of_lt hl, Nat.mod_eq_of_lt hr, Nat.mod_eq_of_lt]
  exact lt_trans (Nat.xor_lt_two_pow hl hr) (by decide)

/-- C1: soundness of the is-zero gate.  For every assignment of field values
`v`, `v_inv`, `r` to the value, value-inverse and result cells of a
selector-active row, if all three polynomials registered by
`IsZeroChip::configure` evaluate to zero, then `r` equals 1 when `v` is the
additive identity and 0 when `v` is nonzero; no other value of `r` satisfies
the constraints. -/
theorem is_zero_gate_sound (F : Type) [Field F] [DecidableEq F]
    (v v_inv r : F)
    (h : ∀ e ∈ IsZeroChip.gate_polys 0 1 2 0,
        Expression.eval (fun _ => 1) (izEnv v v_inv r) e = 0) :
    r = if v = 0 then 1 else 0 := by
  simp only [IsZeroChip.gate_polys, List.mem_cons, List.not_mem_nil, or_false,
    forall_eq_or_imp, forall_eq] at h
  obtain ⟨h1, h2, h3⟩ := h
  simp only [Expression.eval, izEnv] at h1 h2 h3
  norm_num at h1 h2 h3
  by_cases hv : v = 0
  · rw [if_pos hv]
    subst hv
    rcases h1 with hr | hr
    · rw [hr] at h2
      simp at h2
    · exact sub_eq_zero.mp hr
  · rw [if_neg hv]
    rcases h3 with hv0 | hr
    · exact absurd hv0 hv
    · exact hr

/-- Witness for C1: over `ZMod 11`, the triple `(0, 0, 1)` satisfies the
three gate polynomials, and the theorem concludes that the result is forced
to 1. -/
theorem is_zero_gate_sound_witness :
    (1 : ZMod 11) = if (0 : ZMod 11) = 0 then 1 else 0 :=
  is_zero_gate_sound (ZMod 11) 0 0 1 (by decide)

/-- C2: the protocol `load_value(v)` then `is_zero` assigns to the result
cell the value 1 when `v` is the additive identity and 0 otherwise; in
particular, over `ZMod 11`, value 0 gives result 1 and value 9 gives
result 0. -/
theorem is_zero_protocol_correct :
    (∀ (F : Type) [Field F] [DecidableEq F] (v : F),
        is_zero_run (load_value_cells v) = if v = 0 then 1 else 0) ∧
      is_zero_run (load_value_cells (0 : ZMod 11)) = 1 ∧
      is_zero_run (load_value_cells (9 : ZMod 11)) = 0 := by
  have hmain : ∀ (F : Type) [Field F] [DecidableEq F] (v : F),
      is_zero_run (load_value_cells v) = if v = 0 then 1 else 0 := by
    intro F _ _ v
    by_cases hv : v = 0
    · simp [is_zero_run, load_value_cells, inv_witness, hv]
    · simp [is_zero_run, load_value_cells, inv_witness, hv, mul_inv_cancel₀ hv]
  exact ⟨hmain, (hmain (ZMod 11) 0).trans (by decide),
    (hmain (ZMod 11) 9).trans (by decide)⟩

/-- C3 counterexample: at input 3 over `ZMod 11`, the two assignments
performed by `load_value` both target the `value` column; no assignment
targets the `value_inverse` column, contrary to the claim. -/
theorem load_value_no_inverse_column_cex :
    ((load_value_assigns (3 : ZMod 11)).map fun a => a.col) =
        [IZCol.value, IZCol.value] ∧
      IZCol.value ≠ IZCol.value_inverse :=
  ⟨rfl, by decide⟩

/-- C3 (amended): `load_value(v)` performs exactly two assignments, each in
its own region: `v` into the `value` column, and the inverse witness (the
field inverse of `v`, or zero when `v` is the additive identity) also into
the `value` column, not into `value_inverse`; the inverse witness reaches the
`value_inverse` column only later, when `is_zero` copies the cell there. -/
theorem load_value_assigns_spec (F : Type) [Field F] [DecidableEq F] (v : F) :
    (load_value_assigns v).length = 2 ∧
      ((load_value_assigns v).map fun a => a.col) =
        [IZCol.value, IZCol.value] ∧
      ((load_value_assigns v).map fun a => a.region) = [0, 1] ∧
      ((load_value_assigns v).map fun a => a.val) = [v, inv_witness v] ∧
      v * inv_witness v = if v = 0 then 0 else 1 := by
  refine ⟨rfl, rfl, rfl, rfl, ?_⟩
  by_cases hv : v = 0
  · simp [inv_witness, hv]
  · simp [inv_witness, hv, mul_inv_cancel₀ hv]

/-- C4 counterexample: the Pallas base field contains an element with
representative `2^128`; for the input pair with representatives
`(2^128, 0)`, the result witness assigned by `calculate_xor` is 0, while the
bitwise XOR of the integer representatives is `2^128`, a different field
element. -/
theorem xor_representative_truncated_cex :
    2 ^ 128 < pasta_p ∧
      calculate_xor_witness (2 ^ 128) 0 = 0 ∧
      ((2 ^ 128) ^^^ 0) % pasta_p = 2 ^ 128 ∧
      (0 : ℕ) ≠ 2 ^ 128 :=
  ⟨by decide, by decide, by decide, by decide⟩

/-- C4 (amended): for every pair of input cells whose integer representatives
are below `2^128` (in particular every value in the range of the lookup
table), the assigned result witness equals the bitwise XOR of the two
representatives; representatives at or above `2^128` are first truncated to
their low 128 bits by `get_lower_128`. -/
theorem calculate_xor_witness_spec (left right : ℕ)
    (hl : left < 2 ^ 128) (hr : right < 2 ^ 128) :
    calculate_xor_witness left right = left ^^^ right :=
  xor_witness_of_lt hl hr

/-- Witness for C4 (amended): representatives 3 and 1 give result 2. -/
theorem calculate_xor_witness_spec_witness :
    calculate_xor_witness 3 1 = 2 :=
  (calculate_xor_witness_spec 3 1 (by decide) (by decide)).trans (by decide)

/-- C5 counterexample: the origin variant described by the spec rejects the
out-of-range input `left = 16` at `BITS = 4` as fatal, while the single
`calculate_xor` of the source takes assigned cells, performs no validation,
and assigns `(16, 1, 17)` for those cell values. -/
theorem xor_origin_variant_cex :
    calculate_xor_origin_spec 4 16 1 = none ∧
      calculate_xor_run 16 1 = (16, 1, 17) :=
  ⟨by decide, by decide⟩

/-- C5 (amended): the XOR gadget exposes a single `calculate_xor` taking two
previously assigned cells, not raw integers; it validates nothing, activates
the selector at a fresh row, copies both cells into the left and right advice
columns, and assigns the XOR of the low 128 bits of their representatives
into the result column, which for representatives below `2^128` is exactly
their bitwise XOR.  Range restriction is enforced only by the lookup
argument. -/
theorem calculate_xor_run_spec (left right : ℕ)
    (hl : left < 2 ^ 128) (hr : right < 2 ^ 128) :
    calculate_xor_run left right = (left, right, left ^^^ right) := by
  unfold calculate_xor_run
  rw [xor_witness_of_lt hl hr]

/-- Witness for C5 (amended): cell representatives 3 and 1 give the region
assignment `(3, 1, 2)`. -/
theorem calculate_xor_run_spec_witness :
    calculate_xor_run 3 1 = (3, 1, 2) :=
  (calculate_xor_run_spec 3 1 (by decide) (by decide)).trans (by decide)

/-- C6: for every bit-width `BITS`, the table load routine assigns exactly
`2^BITS * 2^BITS` rows, and for every pair `(a, b)` with `a, b < 2^BITS`, the
row at offset `a * 2^BITS + b` holds `(a, b, a XOR b)` as field elements;
the outer loop runs over `a`, so the ordering is lexicographic in `(a, b)`
and deterministic. -/
theorem xor_table_load_spec (F : Type) [Semiring F] (BITS a b : ℕ)
    (ha : a < 2 ^ BITS) (hb : b < 2 ^ BITS) :
    (xor_table_rows F BITS).length = 2 ^ BITS * 2 ^ BITS ∧
      (xor_table_rows F BITS)[a * 2 ^ BITS + b]? =
        some ((a : F), (b : F), ((a ^^^ b : ℕ) : F)) := by
  unfold xor_table_rows
  exact ⟨range_flatMap_map_length
      (fun x y : ℕ => ((x : F), (y : F), ((x ^^^ y : ℕ) : F))) (2 ^ BITS)
      (2 ^ BITS),
    range_flatMap_map_get
      (fun x y : ℕ => ((x : F), (y : F), ((x ^^^ y : ℕ) : F))) (2 ^ BITS)
      (2 ^ BITS) a b ha hb⟩

/-- Witness for C6: over `ℤ` with `BITS = 2`, the table has 16 rows and the
row at offset `1 * 4 + 2` is `(1, 2, 3)`. -/
theorem xor_table_load_spec_witness :
    (xor_table_rows ℤ 2).length = 2 ^ 2 * 2 ^ 2 ∧
      (xor_table_rows ℤ 2)[1 * 2 ^ 2 + 2]? =
        some (((1 : ℕ) : ℤ), ((2 : ℕ) : ℤ), ((1 ^^^ 2 : ℕ) : ℤ)) :=
  xor_table_load_spec ℤ 2 1 2 (by decide) (by decide)

/-- C7: completeness of the is-zero gate.  For every field value `v`, the
honest witness triple `(v, inv_witness v, is_zero_result v)` computed by
`load_value` and `is_zero` makes all three registered gate polynomials
evaluate to zero on the selector-active row. -/
theorem is_zero_gate_complete (F : Type) [Field F] [DecidableEq F] (v : F) :
    (IsZeroChip.gate_polys 0 1 2 0).map
        (Expression.eval (fun _ => 1)
          (izEnv v (inv_witness v) (is_zero_result v))) = [0, 0, 0] := by
  by_cases hv : v = 0
  · subst hv
    simp [IsZeroChip.gate_polys, Expression.eval, izEnv, is_zero_result,
      is_zero_run, load_value_cells, inv_witness]
  · have hinv : v * v⁻¹ = 1 := mul_inv_cancel₀ hv
    simp [IsZeroChip.gate_polys, Expression.eval, izEnv, is_zero_result,
      is_zero_run, load_value_cells, inv_witness, hv, hinv]

/-- C8: the zero-inverse convention of `load_value`.  The inverse witness
equals the multiplicative inverse of `v` when `v` is nonzero, and equals the
zero element of the field when `v` is the additive identity. -/
theorem zero_inverse_convention (F : Type) [Field F] [DecidableEq F] (v : F) :
    (v = 0 → inv_witness v = 0) ∧
      (v ≠ 0 → inv_witness v = v⁻¹ ∧ v * inv_witness v = 1) := by
  constructor
  · intro hv
    simp [inv_witness, hv]
  · intro hv
    exact ⟨by simp [inv_witness, hv],
      by simp [inv_witness, hv, mul_inv_cancel₀ hv]⟩

/-- Witness for C8: over `ZMod 11` at the nonzero value 3, the inverse
witness is the multiplicative inverse. -/
theorem zero_inverse_convention_witness :
    inv_witness (3 : ZMod 11) = (3 : ZMod 11)⁻¹ ∧
      (3 : ZMod 11) * inv_witness (3 : ZMod 11) = 1 :=
  (zero_inverse_convention (ZMod 11) 3).2 (by decide)

/-- C9: `XorChip::construct` allocates one selector and three fresh advice
columns, enables equality on exactly those three columns, registers no gate,
and registers exactly one lookup argument whose input tuple is
`(selector * left, selector * right, selector * result)` matched against the
three table columns. -/
theorem xor_construct_spec (cs : ConstraintSystem) :
    (XorChip.construct cs).2.num_selectors = cs.num_selectors + 1 ∧
      (XorChip.construct cs).1.q_lookup = cs.num_selectors ∧
      (XorChip.construct cs).2.num_advice = cs.num_advice + 3 ∧
      (XorChip.construct cs).1.left_advice = cs.num_advice ∧
      (XorChip.construct cs).1.right_advice = cs.num_advice + 1 ∧
      (XorChip.construct cs).1.result_advice = cs.num_advice + 2 ∧
      (XorChip.construct cs).2.equality =
        cs.equality ++ [cs.num_advice, cs.num_advice + 1, cs.num_advice + 2] ∧
      (XorChip.construct cs).2.gates = cs.gates ∧
      (XorChip.construct cs).2.lookups = cs.lookups ++
        [[((Expression.selector cs.num_selectors).mul
              (Expression.advice cs.num_advice 0),
            (XorChip.construct cs).1.xor_table.left),
          ((Expression.selector cs.num_selectors).mul
              (Expression.advice (cs.num_advice + 1) 0),
            (XorChip.construct cs).1.xor_table.right),
          ((Expression.selector cs.num_selectors).mul
              (Expression.advice (cs.num_advice + 2) 0),
            (XorChip.construct cs).1.xor_table.result)]] := by
  refine ⟨rfl, rfl, rfl, rfl, rfl, rfl, ?_, rfl, rfl⟩
  simp [XorChip.construct, XorTableConfig.configure,
    ConstraintSystem.complex_selector, ConstraintSystem.selector,
    ConstraintSystem.advice_column, ConstraintSystem.lookup_table_column,
    ConstraintSystem.enable_equality, ConstraintSystem.lookup]

/-- C10: on a row where the lookup selector is inactive, every input
expression of the lookup argument registered by `XorChip::construct`
evaluates to zero whatever the advice values are, and `(0, 0, 0)` is exactly
the table row that `load` generates at offset 0 for the pair `a = 0, b = 0`;
hence rows without the selector always have their tuple in the table, for
every `BITS ≥ 1`. -/
theorem xor_lookup_inactive (F : Type) [Field F] (BITS : ℕ) (h : 1 ≤ BITS)
    (adv : ℕ → ℤ → F) :
    ((xorChipDefault.2.lookups.headD []).map fun e =>
        Expression.eval (fun _ => 0) adv e.1) = [0, 0, 0] ∧
      (xor_table_rows F BITS)[0]? = some ((0 : F), (0 : F), (0 : F)) ∧
      ((0 : F), (0 : F), (0 : F)) ∈ xor_table_rows F BITS := by
  have h0 : (0 : ℕ) < 2 ^ BITS := Nat.two_pow_pos BITS
  have hrow : (xor_table_rows F BITS)[0]? =
      some ((0 : F), (0 : F), (0 : F)) := by
    have hg := range_flatMap_map_get
      (fun x y : ℕ => ((x : F), (y : F), ((x ^^^ y : ℕ) : F))) (2 ^ BITS)
      (2 ^ BITS) 0 0 h0 h0
    unfold xor_table_rows
    simpa using hg
  refine ⟨?_, hrow, List.getElem?_mem hrow⟩
  simp [xorChipDefault, XorChip.construct, XorTableConfig.configure, emptyCS,
    ConstraintSystem.complex_selector, ConstraintSystem.selector,
    ConstraintSystem.advice_column, ConstraintSystem.lookup_table_column,
    ConstraintSystem.enable_equality, ConstraintSystem.lookup,
    Expression.eval]

/-- Witness for C10: over `ZMod 11` with `BITS = 1` and all advice cells
holding 7, the lookup tuple of an inactive row evaluates to `(0, 0, 0)` and
that triple is a table row. -/
theorem xor_lookup_inactive_witness :
    ((xorChipDefault.2.lookups.headD []).map fun e =>
        Expression.eval (fun _ => 0) (fun _ _ => (7 : ZMod 11)) e.1) =
        [0, 0, 0] ∧
      (xor_table_rows (ZMod 11) 1)[0]? =
        some ((0 : ZMod 11), (0 : ZMod 11), (0 : ZMod 11)) ∧
      ((0 : ZMod 11), (0 : ZMod 11), (0 : ZMod 11)) ∈
        xor_table_rows (ZMod 11) 1 :=
  xor_lookup_inactive (ZMod 11) 1 (by decide) (fun _ _ => 7)

end HaloPlayground
